import Mathlib

/-!
Shallow embedding of the client-side state logic of the FE-GO-LOSTMEDIA
repository (a Next.js front end for a social content-sharing site), together
with theorems about its feed pagination, like handling, comment submission,
post composition and submission payload construction.

Conventions used throughout the embedding:
* React `useState` state is modelled as explicit record types; an event handler
  becomes a pure function from the old state (plus its inputs, including the
  backend response it observes, if any) to the new state.
* Network effects are made observable: handlers return, next to the new state,
  the list of outgoing requests/navigations they issue, so that "no request is
  sent" is a provable statement.
* JavaScript truthiness on the values that occur in the code is modelled
  explicitly: for strings `x || d` falls back exactly on `""`, for numbers
  exactly on `0`, for booleans exactly on `false`, and for optional values on
  `undefined`/`null` (here `Option.none`).
* JavaScript array writes `a[i] = v` beyond the current length pad the array;
  the padding value used for the hole entries is the neutral element of the
  entry type (`none` for file slots, `""` for string slots).
* A `File` object is modelled by an opaque string identifier; the browser's
  `URL.createObjectURL` is modelled by an injective tagging function.
-/

namespace FeGoLostMedia

/-! ## JavaScript helpers -/

/-- JS `o || d` for an optional string whose carried value may itself be
falsy: `some ""` and `none` both fall back to `d`. -/
def jsOrString (o : Option String) (d : String) : String :=
  match o with
  | some s => if s = "" then d else s
  | none => d

/-- JS `o || null` for an optional string: `some ""` collapses to `null`. -/
def jsOrNull (o : Option String) : Option String :=
  match o with
  | some s => if s = "" then none else some s
  | none => none

/-- JS `s || undefined` for a string: the empty string becomes `undefined`. -/
def jsOrUndef (s : String) : Option String :=
  if s = "" then none else some s

/-- JS `o || d` for an optional boolean: `some false` and `none` both fall
back to `d`. -/
def jsOrBool (o : Option Bool) (d : Bool) : Bool :=
  match o with
  | some true => true
  | some false => d
  | none => d

/-- JS `o || d` for an optional number: `some 0` and `none` both fall back
to `d`. -/
def jsOrNat (o : Option Nat) (d : Nat) : Nat :=
  match o with
  | some n => if n = 0 then d else n
  | none => d

/-- JS array write `a[i] = v`: in range it replaces the entry, out of range it
extends the array, filling the intermediate holes with `pad`. -/
def jsSetElem {α : Type} (l : List α) (i : Nat) (v : α) (pad : α) : List α :=
  if i < l.length then l.set i v
  else l ++ List.replicate (i - l.length) pad ++ [v]

/-- Drop leading whitespace characters from a character list. -/
def dropWhitespace (cs : List Char) : List Char :=
  match cs with
  | [] => []
  | c :: rest => if c.isWhitespace then dropWhitespace rest else c :: rest

/-- Model of JS `String.prototype.trim`: strip leading and trailing
whitespace. (Defined by structural recursion over the character list so
that concrete instances evaluate.) -/
def jsTrim (s : String) : String :=
  String.mk (dropWhitespace (dropWhitespace s.data).reverse).reverse

/-- Model of the browser's `URL.createObjectURL` on a file identifier. -/
def objectURL (file : String) : String :=
  "blob:" ++ file

/-! ## Feed pagination (src/src/pages/index.tsx) -/

/-- The slice of a feed post that the pagination and like logic manipulate. -/
structure Post where
  postId : String
  likesCount : Nat
deriving Repr, DecidableEq

/-- The feed state managed by the `Home` page: the accumulated `posts` list
and the `offset`/`hasMore` pagination bookkeeping. -/
structure FeedState where
  posts : List Post
  offset : Nat
  hasMore : Bool
deriving Repr, DecidableEq

/-- The page size used by the feed (`const limit = 20`). -/
def feedLimit : Nat := 20

/-- Success path of `loadPosts` from `src/src/pages/index.tsx`: given the
`reset` flag, the previous feed state, the page of (already normalised) posts
decoded from the response and the reported `total`, it computes the new feed
state exactly as the `setPosts`/`setHasMore`/`setOffset` calls do. -/
def loadPosts (reset : Bool) (st : FeedState) (page : List Post) (total : Nat) : FeedState :=
  let currentOffset := if reset then 0 else st.offset
  { posts := if reset then page else st.posts ++ page
    offset := currentOffset + page.length
    hasMore := decide (page.length = feedLimit ∧ currentOffset + feedLimit < total) }

/-- The `handleLike` callback of the `Home` page
(`src/src/pages/index.tsx`, lines 173-182): it locally increments the
`likesCount` of the post whose id matches, touching no backend data. -/
def homeHandleLike (postId : String) (posts : List Post) : List Post :=
  posts.map fun post =>
    if post.postId = postId then { post with likesCount := post.likesCount + 1 } else post

/-! ## Like handling on the post card and the share page
(src/unnamed/part_001 `handleLike`, src/src/pages/share/[id].tsx `handleLike`) -/

/-- The like-related display state: the `isLiked` flag and the `likesCount`. -/
structure LikeState where
  isLiked : Bool
  likesCount : Nat
deriving Repr, DecidableEq

/-- The decoded body of the backend's response to `POST
/api/v1/posts/:id/like`: the HTTP `ok` flag and the optional
`data.data?.isLiked` / `data.data?.likesCount` fields. -/
structure LikeResponse where
  ok : Bool
  isLiked : Option Bool
  likesCount : Option Nat
deriving Repr, DecidableEq

/-- Observable effects of the share page's like handler. -/
inductive ShareEffect
  | redirectLogin
  | likeRequest
deriving Repr, DecidableEq

/-- The `handleLike` handler of `src/src/pages/share/[id].tsx` (and,
identically for the state update, of the post card in
`src/unnamed/part_001`): without an access token it redirects to the login
page and sends nothing; with a token it issues the like request and then,
only when an `ok` response arrives (`resp = some r`, `r.ok`), sets
`isLiked` to `data.data?.isLiked || !isLiked` and `likesCount` to
`data.data?.likesCount || likesCount`. A network failure (`resp = none`,
the `catch` branch) or a non-`ok` response leaves the display unchanged. -/
def shareHandleLike (hasToken : Bool) (st : LikeState) (resp : Option LikeResponse) :
    LikeState × List ShareEffect :=
  if hasToken = false then (st, [ShareEffect.redirectLogin])
  else
    match resp with
    | none => (st, [ShareEffect.likeRequest])
    | some r =>
      if r.ok then
        ({ isLiked := jsOrBool r.isLiked (!st.isLiked)
           likesCount := jsOrNat r.likesCount st.likesCount }, [ShareEffect.likeRequest])
      else (st, [ShareEffect.likeRequest])

/-- The `handleLike` handler of the post card (`src/unnamed/part_001`,
lines 97-123): same update as the share page, and additionally reports
whether the `onLike` parent callback fired, which happens exactly inside the
`response.ok` branch. -/
def postCardHandleLike (hasToken : Bool) (st : LikeState) (resp : Option LikeResponse) :
    LikeState × List ShareEffect × Bool :=
  if hasToken = false then (st, [ShareEffect.redirectLogin], false)
  else
    match resp with
    | none => (st, [ShareEffect.likeRequest], false)
    | some r =>
      if r.ok then
        ({ isLiked := jsOrBool r.isLiked (!st.isLiked)
           likesCount := jsOrNat r.likesCount st.likesCount }, [ShareEffect.likeRequest], true)
      else (st, [ShareEffect.likeRequest], false)

/-! ## Comment submission (src/src/pages/share/[id].tsx `handleSubmitComment`) -/

/-- A comment as displayed by the share page. -/
structure CommentItem where
  commentId : String
  content : String
deriving Repr, DecidableEq

/-- The decoded body of the backend's response to the comment-creation
request: the HTTP `ok` flag and the comment extracted by
`data.data?.comment || data.comment` (if any). -/
structure CommentResponse where
  ok : Bool
  comment : Option CommentItem
deriving Repr, DecidableEq

/-- The comment-related state of the share page. -/
structure CommentState where
  comments : List CommentItem
  commentText : String
deriving Repr, DecidableEq

/-- Observable effects of `handleSubmitComment`. -/
inductive CommentEffect
  | redirectLogin
  | postComment (content : String)
deriving Repr, DecidableEq

/-- The `handleSubmitComment` handler of `src/src/pages/share/[id].tsx`
(lines 205-240): with blank trimmed text or no access token it sends nothing
(redirecting to login in the no-token case); otherwise it posts the comment
and, on an `ok` response carrying a comment, appends it to the list and
clears the input. -/
def handleSubmitComment (hasToken : Bool) (st : CommentState) (resp : Option CommentResponse) :
    CommentState × List CommentEffect :=
  if jsTrim st.commentText = "" ∨ hasToken = false then
    if hasToken = false then (st, [CommentEffect.redirectLogin]) else (st, [])
  else
    match resp with
    | none => (st, [CommentEffect.postComment st.commentText])
    | some r =>
      if r.ok then
        match r.comment with
        | some c =>
          ({ comments := st.comments ++ [c], commentText := "" },
            [CommentEffect.postComment st.commentText])
        | none => (st, [CommentEffect.postComment st.commentText])
      else (st, [CommentEffect.postComment st.commentText])

/-! ## Simple create-post page (src/src/pages/posts/create.tsx) -/

/-- The `formData` state of the create-post page. -/
structure CreateFormData where
  title : String
  description : String
  content : String
  category : String
  mediaUrl : String
  blurred : Bool
  isPublished : Bool
deriving Repr, DecidableEq

/-- The argument object passed to `apiClient.createPost`. -/
structure CreatePostRequest where
  title : String
  description : Option String
  content : Option String
  category : String
  mediaUrl : Option String
  blurred : Bool
  isPublished : Bool
deriving Repr, DecidableEq

/-- The `handleSubmit` handler of `src/src/pages/posts/create.tsx` (lines
44-97): it validates the trimmed title and category, and only when both are
non-empty calls `apiClient.createPost`, passing blank optional fields as
`undefined` via `||`. The handler never writes `formData`, so the form state
component of the result is the input form state. -/
def createHandleSubmit (fd : CreateFormData) : CreateFormData × Option CreatePostRequest :=
  if jsTrim fd.title = "" then (fd, none)
  else if jsTrim fd.category = "" then (fd, none)
  else
    (fd, some
      { title := fd.title
        description := jsOrUndef fd.description
        content := jsOrUndef fd.content
        category := fd.category
        mediaUrl := jsOrUndef fd.mediaUrl
        blurred := fd.blurred
        isPublished := fd.isPublished })

/-! ## Multi-section post composer (src/unnamed/part_002) -/

/-- The section `type` union of the composer's `ContentSection`. -/
inductive SectionType
  | image
  | code
  | video
  | link
  | html
deriving Repr, DecidableEq

/-- A content section of the composer (`interface ContentSection` in
`src/unnamed/part_002`, lines 47-54). -/
structure ContentSection where
  type : SectionType
  content : Option String
  src : Option String
  imageDetail : Option (List String)
  order : Nat
deriving Repr, DecidableEq

/-- The per-section array of chosen files; `none` entries are the `null`
placeholders the code stores for empty file inputs. -/
abbrev FileSlots := List (Option String)

/-- The per-section array of object-URL previews. -/
abbrev PreviewSlots := List String

/-- The composer state relevant to section management: the sections and the
parallel per-section file/preview arrays. The outer lists carry `Option`
entries so that JS array holes (skipped indices) are distinguishable from
present-but-empty arrays, which the code distinguishes by truthiness. -/
structure ComposerState where
  contentSections : List ContentSection
  contentSectionImageFiles : List (Option FileSlots)
  contentSectionImagePreviews : List (Option PreviewSlots)
deriving Repr, DecidableEq

/-- Read an outer slot as the code does with `arr[i] || []`: a hole (or out
of range index) and an absent entry both read as the empty array. -/
def readSlots {α : Type} (l : List (Option (List α))) (i : Nat) : List α :=
  ((l[i]?).getD none).getD []

/-- Truthiness of `arr[i]` for an outer slot: present arrays (even empty
ones) are truthy, holes and out-of-range reads are falsy. -/
def slotPresent {α : Type} (l : List (Option (List α))) (i : Nat) : Bool :=
  ((l[i]?).getD none).isSome

/-- The JS sequence `if (!a[i]) a[i] = []; a[i][j] = v` on an outer slot
array: materialise the slot if absent, then write position `j` in it,
padding inner holes with `pad`. -/
def writeSlot {α : Type} (l : List (Option (List α))) (i j : Nat) (v : α) (pad : α) :
    List (Option (List α)) :=
  jsSetElem l i (some (jsSetElem (readSlots l i) j v pad)) none

/-- The JS sequence `if (!a[i]) a[i] = []; a[i] = [...a[i], v]` appending
to an outer slot. -/
def appendToSlot {α : Type} (l : List (Option (List α))) (i : Nat) (v : α) :
    List (Option (List α)) :=
  jsSetElem l i (some (readSlots l i ++ [v])) none

/-- The `.map((section, i) => ({ ...section, order: i }))` (respectively the
equivalent `forEach` mutation) reindexing the `order` fields after a removal
or a move. -/
def reindexOrders (l : List ContentSection) : List ContentSection :=
  l.mapIdx fun i s => { s with order := i }

/-- The empty composer (`useState` initial values of the three lists). -/
def initialComposer : ComposerState :=
  { contentSections := []
    contentSectionImageFiles := []
    contentSectionImagePreviews := [] }

/-- The `addContentSection` handler (`src/unnamed/part_002`, lines 728-767):
when a section of the requested type already exists it only shows a toast
and changes nothing; otherwise it appends a fresh section with
`order = contentSections.length` and, for image sections, seeds the file and
preview arrays with one empty slot. -/
def addContentSection (st : ComposerState) (t : SectionType) : ComposerState :=
  if st.contentSections.any (fun s => s.type == t) then st
  else
    let newSection : ContentSection :=
      { type := t
        content := if t = .code ∨ t = .html then some "" else none
        src := if t = .image ∨ t = .video ∨ t = .link then some "" else none
        imageDetail := if t = .image then some [""] else none
        order := st.contentSections.length }
    { contentSections := st.contentSections ++ [newSection]
      contentSectionImageFiles :=
        if t = .image then st.contentSectionImageFiles ++ [some [none]]
        else st.contentSectionImageFiles
      contentSectionImagePreviews :=
        if t = .image then st.contentSectionImagePreviews ++ [some [""]]
        else st.contentSectionImagePreviews }

/-- The `removeContentSection` handler (`src/unnamed/part_002`, lines
890-903): drop the section at `index` (`filter((_, i) => i !== index)`),
reindex the `order` fields, and drop the parallel file/preview entries. -/
def removeContentSection (st : ComposerState) (index : Nat) : ComposerState :=
  { contentSections := reindexOrders (st.contentSections.eraseIdx index)
    contentSectionImageFiles := st.contentSectionImageFiles.eraseIdx index
    contentSectionImagePreviews := st.contentSectionImagePreviews.eraseIdx index }

/-- The JS double assignment `a[index] = a[newIndex]; a[newIndex] = temp`
swapping two entries. In the source both indices are in range whenever the
swap is reached (the guard excludes the boundary cases and the UI only
passes rendered indices), so the out-of-range case is modelled as a no-op. -/
def swapEntries {α : Type} (l : List α) (i j : Nat) : List α :=
  match l[i]?, l[j]? with
  | some a, some b => (l.set i b).set j a
  | _, _ => l

/-- The `moveContentSection` handler (`src/unnamed/part_002`, lines
905-927): moving the first section up or the last one down is a no-op;
otherwise the section is swapped with its neighbour and the `order` fields
are reindexed. Only `contentSections` is touched. -/
def moveContentSection (st : ComposerState) (index : Nat) (up : Bool) : ComposerState :=
  let sections :=
    if (up = true ∧ index = 0) ∨ (up = false ∧ index = st.contentSections.length - 1) then
      st.contentSections
    else
      reindexOrders (swapEntries st.contentSections index (if up then index - 1 else index + 1))
  { st with contentSections := sections }

/-- The roles treated as privileged by `isPrivilegedRole`
(`src/unnamed/part_002`, lines 769-772). -/
def privilegedRoles : List String := ["owner", "admin", "mod"]

/-- The `isPrivilegedRole` helper: `["owner", "admin", "mod"].includes(role || "")`. -/
def isPrivilegedRole (role : Option String) : Bool :=
  privilegedRoles.contains (jsOrString role "")

/-- The per-section image limit used by `addImageDetail`: 30 for the `god`
role, 5 otherwise. -/
def imageLimitFor (role : Option String) : Nat :=
  if role = some "god" then 30 else 5

/-- The `addImageDetail` handler (`src/unnamed/part_002`, lines 775-819):
for non-privileged roles it refuses (toast only, no state change) when the
targeted section's `imageDetail` already has at least `imageLimit` entries;
otherwise it appends an empty URL slot to the image section at
`sectionIndex` and empty slots to the parallel file/preview arrays. -/
def addImageDetail (st : ComposerState) (role : Option String) (sectionIndex : Nat) :
    ComposerState :=
  let imageLimit := imageLimitFor role
  let currentCount :=
    ((st.contentSections[sectionIndex]?).map fun s => (s.imageDetail.getD []).length).getD 0
  if isPrivilegedRole role = false ∧ imageLimit ≤ currentCount then st
  else
    { contentSections := st.contentSections.mapIdx fun i s =>
        if i = sectionIndex ∧ s.type = .image then
          { s with imageDetail := some ((s.imageDetail.getD []) ++ [""]) }
        else s
      contentSectionImageFiles := appendToSlot st.contentSectionImageFiles sectionIndex none
      contentSectionImagePreviews := appendToSlot st.contentSectionImagePreviews sectionIndex "" }

/-- The `updateImageDetail` handler (`src/unnamed/part_002`, lines 821-839):
write `value` at `imageIndex` of the image section at `sectionIndex`. -/
def updateImageDetail (st : ComposerState) (sectionIndex imageIndex : Nat) (value : String) :
    ComposerState :=
  { st with contentSections := st.contentSections.mapIdx fun i s =>
      if i = sectionIndex ∧ s.type = .image then
        { s with imageDetail := some (jsSetElem (s.imageDetail.getD []) imageIndex value "") }
      else s }

/-- The section-management operations a user can perform while arranging a
post's sections. -/
inductive ComposerOp
  | addSection (t : SectionType)
  | removeSection (index : Nat)
  | moveSection (index : Nat) (up : Bool)
deriving Repr, DecidableEq

/-- Apply one section-management operation. -/
def applyComposerOp (st : ComposerState) : ComposerOp → ComposerState
  | .addSection t => addContentSection st t
  | .removeSection i => removeContentSection st i
  | .moveSection i up => moveContentSection st i up

/-- The composer state reached by a sequence of section-management
operations from the empty composer. -/
def runComposerOps (ops : List ComposerOp) : ComposerState :=
  ops.foldl applyComposerOp initialComposer

/-! ## Media selection and submission (src/unnamed/part_002) -/

/-- The featured-image state of the composer. -/
structure FeaturedImageState where
  selectedFeaturedImage : Option String
  featuredImagePreview : Option String
  mediaUrl : String
deriving Repr, DecidableEq

/-- Observable network effects of the media handlers; selection handlers
issue none, the submission handler issues one `uploadRequest` per file. -/
inductive UploadEffect
  | uploadRequest (file : String)
deriving Repr, DecidableEq

/-- The `handleFeaturedImageChange` handler (`src/unnamed/part_002`, lines
930-946): with no file or a failed `imageSchema` validation it changes
nothing; otherwise it stores the file and a local object-URL preview. It
performs no fetch, so its effect list is empty in every case. -/
def handleFeaturedImageChange (st : FeaturedImageState) (file : Option String)
    (validationOk : Bool) : FeaturedImageState × List UploadEffect :=
  match file with
  | none => (st, [])
  | some f =>
    if validationOk = false then (st, [])
    else
      ({ st with
          selectedFeaturedImage := some f
          featuredImagePreview := some (objectURL f) }, [])

/-- The `handleContentSectionImageChange` handler (`src/unnamed/part_002`,
lines 955-993): store the chosen file in the file slot, store an object-URL
preview (an empty string when the file was cleared), and blank the typed URL
at the same position via `updateImageDetail`. It performs no fetch, so its
effect list is empty in every case. -/
def handleContentSectionImageChange (cs : ComposerState) (sectionIndex imageIndex : Nat)
    (file : Option String) : ComposerState × List UploadEffect :=
  let files' := writeSlot cs.contentSectionImageFiles sectionIndex imageIndex file none
  let previews' := writeSlot cs.contentSectionImagePreviews sectionIndex imageIndex
    (match file with | some f => objectURL f | none => "") ""
  (updateImageDetail
    { cs with contentSectionImageFiles := files', contentSectionImagePreviews := previews' }
    sectionIndex imageIndex "", [])

/-- The non-section inputs of `handleSubmitConfirm`. -/
structure ComposerFields where
  title : String
  description : String
  category : String
  customCategory : String
  isCustomCategory : Bool
  mediaUrl : String
  blurred : Bool
  selectedFeaturedImage : Option String
deriving Repr, DecidableEq

/-- A section of the payload object built by `handleSubmitConfirm`. -/
structure PayloadSection where
  type : SectionType
  content : Option String
  src : Option String
  imageDetail : Option (List String)
  order : Nat
deriving Repr, DecidableEq

/-- The payload object built by `handleSubmitConfirm` and passed to
`postAPI.createPost` / `postAPI.updatePost`. -/
structure PostPayload where
  title : String
  description : String
  category : String
  mediaUrl : Option String
  blurred : Bool
  sections : List PayloadSection
deriving Repr, DecidableEq

/-- The upload loop of `handleSubmitConfirm` (`src/unnamed/part_002`, lines
1114-1147): each image section with a present file slot gets its
`imageDetail` replaced by the upload URLs of its non-null files, in order;
every other section is returned unchanged. `upload` is the URL the
image-hosting endpoint returns for a file. -/
def uploadSection (upload : String → String) (files : List (Option FileSlots))
    (sectionIdx : Nat) (s : ContentSection) : ContentSection :=
  if s.type = .image ∧ slotPresent files sectionIdx then
    { s with imageDetail := some (((readSlots files sectionIdx).filterMap id).map upload) }
  else s

/-- The mapped sections returned by the `Promise.all` of the upload loop. -/
def updatedSections (upload : String → String) (sections : List ContentSection)
    (files : List (Option FileSlots)) : List ContentSection :=
  sections.mapIdx fun sectionIdx s => uploadSection upload files sectionIdx s

/-- The files `handleSubmitConfirm` uploads: the selected featured image (if
any) followed by, for each image section with a present file slot, its
non-null files in order. -/
def submitUploadedFiles (fields : ComposerFields) (cs : ComposerState) : List String :=
  fields.selectedFeaturedImage.toList ++
    (cs.contentSections.mapIdx fun sectionIdx s =>
      if s.type = .image ∧ slotPresent cs.contentSectionImageFiles sectionIdx then
        (readSlots cs.contentSectionImageFiles sectionIdx).filterMap id
      else []).flatten

/-- The `sections:` field construction of the payload (`src/unnamed/part_002`,
lines 1168-1177), applied after the html filter: blank `content`/`src`
collapse to `null`, image sections keep only their non-blank detail URLs,
and `order` is `section.order || index + 1`. -/
def payloadOfSection (index : Nat) (s : ContentSection) : PayloadSection :=
  { type := s.type
    content := jsOrNull s.content
    src := jsOrNull s.src
    imageDetail :=
      if s.type = .image then
        some ((s.imageDetail.getD []).filter fun url => jsTrim url != "")
      else none
    order := if s.order = 0 then index + 1 else s.order }

/-- The `sections:` field of the payload, mapped over the html-filtered list. -/
def buildPayloadSections (l : List ContentSection) : List PayloadSection :=
  l.mapIdx fun index s => payloadOfSection index s

/-- The success path of `handleSubmitConfirm` (`src/unnamed/part_002`, lines
1002-1185) as far as the submitted payload is concerned: upload the featured
image (when one is selected) and the section images, drop `html` sections,
and assemble the payload object. Both role branches upload the featured
image identically. -/
def handleSubmitConfirm (upload : String → String) (fields : ComposerFields)
    (cs : ComposerState) : PostPayload :=
  let finalMediaUrl :=
    match fields.selectedFeaturedImage with
    | some file => some (upload file)
    | none => jsOrUndef (jsTrim fields.mediaUrl)
  let updated := updatedSections upload cs.contentSections cs.contentSectionImageFiles
  let filteredSections := updated.filter fun s => s.type != .html
  { title := jsTrim fields.title
    description := jsTrim fields.description
    category :=
      if fields.isCustomCategory then jsTrim fields.customCategory else jsTrim fields.category
    mediaUrl := finalMediaUrl
    blurred := fields.blurred
    sections := buildPayloadSections filteredSections }

/-! ## Theorems -/

/-- C1: Feed pagination accumulator: a load-more invocation of `loadPosts`
(`reset = false`) starting at offset `st.offset` that receives a page `page`
with reported total `total` appends the page in order, advances the offset
by the page length, and sets `hasMore` exactly when the page is full
(length 20) and `offset + 20 < total`; a reset invocation replaces the
posts list with the page and sets the offset to its length. -/
theorem loadPosts_pagination (st : FeedState) (page : List Post) (total : Nat) :
    (loadPosts false st page total).posts = st.posts ++ page ∧
    (loadPosts false st page total).offset = st.offset + page.length ∧
    ((loadPosts false st page total).hasMore = true ↔
      page.length = feedLimit ∧ st.offset + feedLimit < total) ∧
    (loadPosts true st page total).posts = page ∧
    (loadPosts true st page total).offset = page.length := by
  refine ⟨rfl, rfl, ?_, rfl, ?_⟩
  · simp [loadPosts]
  · simp [loadPosts]

/-- C2 (counterexample): the like update is not issued before and
independently of the backend's response: at the same pre-state and token,
an `ok` response carrying `isLiked = true`, `likesCount = 6` and a non-`ok`
response produce different displayed states, and a non-`ok` response (as
well as a network failure) leaves the displayed state unchanged — so no
update happens independently of the response. -/
theorem shareHandleLike_not_optimistic_cex :
    (shareHandleLike true (LikeState.mk false 5)
        (some (LikeResponse.mk true (some true) (some 6)))).1
      ≠ (shareHandleLike true (LikeState.mk false 5)
        (some (LikeResponse.mk false none none))).1 ∧
    (shareHandleLike true (LikeState.mk false 5)
        (some (LikeResponse.mk false none none))).1 = LikeState.mk false 5 ∧
    (shareHandleLike true (LikeState.mk false 5) none).1 = LikeState.mk false 5 := by
  decide

/-- C2 (amended): the like handlers are response-driven rather than
optimistic. For every like action: the displayed state changes only when the
handler saw an `ok` response; on an `ok` response the new state is computed
from the response fields (`isLiked || !isLiked`, `likesCount || likesCount`);
without an access token the user is redirected to login; the like request is
issued exactly when a token is present; and the post card's handler performs
the same state update as the share page's. -/
theorem shareHandleLike_response_driven (hasToken : Bool) (st : LikeState)
    (resp : Option LikeResponse) :
    ((shareHandleLike hasToken st resp).1 = st ∨
      (hasToken = true ∧ ∃ r, resp = some r ∧ r.ok = true)) ∧
    (∀ r, hasToken = true → resp = some r → r.ok = true →
      (shareHandleLike hasToken st resp).1
        = LikeState.mk (jsOrBool r.isLiked (!st.isLiked)) (jsOrNat r.likesCount st.likesCount)) ∧
    (hasToken = false → shareHandleLike hasToken st resp = (st, [ShareEffect.redirectLogin])) ∧
    ((shareHandleLike hasToken st resp).2 = [ShareEffect.likeRequest] ↔ hasToken = true) ∧
    (postCardHandleLike hasToken st resp).1 = (shareHandleLike hasToken st resp).1 := by
  cases hasToken with
  | false => simp [shareHandleLike, postCardHandleLike]
  | true =>
    cases resp with
    | none => simp [shareHandleLike, postCardHandleLike]
    | some r =>
      obtain ⟨ok, il, lc⟩ := r
      cases ok <;> simp [shareHandleLike, postCardHandleLike]

/-- C2 (witness): the amended theorem applied at a concrete state and
response: liking from `(false, 5)` with an `ok` response carrying
`isLiked = true` and `likesCount = 6` displays `(true, 6)`. -/
theorem shareHandleLike_response_driven_witness :
    (shareHandleLike true (LikeState.mk false 5)
        (some (LikeResponse.mk true (some true) (some 6)))).1 = LikeState.mk true 6 := by
  have h := (shareHandleLike_response_driven true (LikeState.mk false 5)
      (some (LikeResponse.mk true (some true) (some 6)))).2.1
    (LikeResponse.mk true (some true) (some 6)) rfl rfl rfl
  simpa [jsOrBool, jsOrNat] using h

/-- C6 (counterexample): the client does derive a counter value itself: the
home feed's `handleLike` callback turns a displayed `likesCount` of 5 into
6 with no backend response involved at all, so not every displayed counter
value is obtained from a backend API response. -/
theorem homeHandleLike_derives_counter_cex :
    homeHandleLike "p1" [Post.mk "p1" 5] = [Post.mk "p1" 6] ∧
    homeHandleLike "p1" [Post.mk "p1" 5] ≠ [Post.mk "p1" 5] := by
  decide

/-- C6 (amended): the home feed's `handleLike` callback derives the like
counter locally: at every position of the feed it keeps the post id and
increments `likesCount` by exactly one for the post whose id matches the
liked id (by zero for every other post), independently of any backend
response. -/
theorem homeHandleLike_local_increment (pid : String) (posts : List Post) (i : Nat) :
    ((homeHandleLike pid posts)[i]?).map Post.likesCount
      = (posts[i]?).map (fun p => p.likesCount + if p.postId = pid then 1 else 0) ∧
    ((homeHandleLike pid posts)[i]?).map Post.postId = (posts[i]?).map Post.postId := by
  constructor <;>
  · simp only [homeHandleLike, List.getElem?_map]
    cases posts[i]? with
    | none => rfl
    | some p =>
      by_cases h : p.postId = pid <;> simp [h]

/-- C7: `handleSubmitComment` sends the comment-creation request exactly
when the trimmed text is non-empty and a token is present; with blank text
and a token it changes nothing and sends nothing; without a token it only
redirects to login; and on an `ok` response carrying the created comment it
appends that comment at the end of the list and clears the input. -/
theorem handleSubmitComment_spec (hasToken : Bool) (st : CommentState)
    (resp : Option CommentResponse) :
    (CommentEffect.postComment st.commentText ∈ (handleSubmitComment hasToken st resp).2 ↔
      jsTrim st.commentText ≠ "" ∧ hasToken = true) ∧
    (jsTrim st.commentText = "" → hasToken = true →
      handleSubmitComment hasToken st resp = (st, [])) ∧
    (hasToken = false →
      handleSubmitComment hasToken st resp = (st, [CommentEffect.redirectLogin])) ∧
    (∀ r c, jsTrim st.commentText ≠ "" → hasToken = true → resp = some r → r.ok = true →
      r.comment = some c →
      (handleSubmitComment hasToken st resp).1 = CommentState.mk (st.comments ++ [c]) "") := by
  cases hasToken with
  | false => simp [handleSubmitComment]
  | true =>
    by_cases htrim : jsTrim st.commentText = ""
    · simp [handleSubmitComment, htrim]
    · refine ⟨?_, by simp [htrim], by simp, ?_⟩
      · cases resp with
        | none => simp [handleSubmitComment, htrim]
        | some r =>
          obtain ⟨ok, c?⟩ := r
          cases ok <;> cases c? <;> simp [handleSubmitComment, htrim]
      · rintro ⟨ok, c?⟩ c _ _ rfl hok hc
        subst hok
        cases hc
        simp [handleSubmitComment, htrim]

/-- C7 (witness): submitting the text " hi " with a token and an `ok`
response carrying comment `c1` appends `c1` and clears the input, and the
request effect is issued. -/
theorem handleSubmitComment_spec_witness :
    (handleSubmitComment true (CommentState.mk [] " hi ")
        (some (CommentResponse.mk true (some (CommentItem.mk "c1" "hi"))))).1
      = CommentState.mk [CommentItem.mk "c1" "hi"] "" ∧
    CommentEffect.postComment " hi " ∈
      (handleSubmitComment true (CommentState.mk [] " hi ")
        (some (CommentResponse.mk true (some (CommentItem.mk "c1" "hi"))))).2 := by
  have h := handleSubmitComment_spec true (CommentState.mk [] " hi ")
      (some (CommentResponse.mk true (some (CommentItem.mk "c1" "hi"))))
  refine ⟨?_, ?_⟩
  · have h4 := h.2.2.2 (CommentResponse.mk true (some (CommentItem.mk "c1" "hi")))
      (CommentItem.mk "c1" "hi") (by decide) rfl rfl rfl rfl
    simpa using h4
  · exact h.1.mpr ⟨by decide, rfl⟩

/-- C10: the simple create-post page's `handleSubmit` issues the
`createPost` call exactly when both the trimmed title and the trimmed
category are non-empty, never touches the form state, and passes blank
optional fields (`description`, `content`, `mediaUrl`) as `undefined`
rather than as empty strings. -/
theorem createHandleSubmit_spec (fd : CreateFormData) :
    ((createHandleSubmit fd).2.isSome ↔ jsTrim fd.title ≠ "" ∧ jsTrim fd.category ≠ "") ∧
    (createHandleSubmit fd).1 = fd ∧
    (∀ req, (createHandleSubmit fd).2 = some req →
      (req.description = none ↔ fd.description = "") ∧
      (req.content = none ↔ fd.content = "") ∧
      (req.mediaUrl = none ↔ fd.mediaUrl = "") ∧
      req.title = fd.title ∧ req.category = fd.category) := by
  by_cases ht : jsTrim fd.title = ""
  · simp [createHandleSubmit, ht]
  · by_cases hc : jsTrim fd.category = ""
    · simp [createHandleSubmit, ht, hc]
    · refine ⟨by simp [createHandleSubmit, ht, hc], by simp [createHandleSubmit, ht, hc], ?_⟩
      intro req hreq
      simp only [createHandleSubmit, ht, hc, if_false, Option.some.injEq] at hreq
      subst hreq
      refine ⟨?_, ?_, ?_, rfl, rfl⟩ <;>
      · simp only [jsOrUndef]
        split <;> simp_all

/-- C10 (witness): a form with title "T", category "C" and blank optional
fields does issue a request, and that request carries the optional fields as
`undefined`. -/
theorem createHandleSubmit_spec_witness :
    (createHandleSubmit (CreateFormData.mk "T" "" "" "C" "" false true)).2.isSome = true ∧
    (createHandleSubmit (CreateFormData.mk "T" "" "" "C" "" false true)).2
      = some (CreatePostRequest.mk "T" none none "C" none false true) :=
  ⟨(createHandleSubmit_spec (CreateFormData.mk "T" "" "" "C" "" false true)).1.mpr
      ⟨by decide, by decide⟩,
    by decide⟩

/-- Helper: prepending the element read at position `j` to the list with `x`
written at position `j` is a permutation of prepending `x`. -/
theorem cons_set_perm {α : Type} (xs : List α) (j : Nat) (b x : α)
    (hj : xs[j]? = some b) : (b :: xs.set j x).Perm (x :: xs) := by
  induction xs generalizing j with
  | nil => simp at hj
  | cons y ys ih =>
    cases j with
    | zero =>
      simp only [List.getElem?_cons_zero, Option.some.injEq] at hj
      rw [hj]
      exact List.Perm.swap x b ys
    | succ j =>
      simp only [List.getElem?_cons_succ] at hj
      have h1 : (b :: y :: ys.set j x).Perm (y :: b :: ys.set j x) := List.Perm.swap y b _
      have h2 : (y :: b :: ys.set j x).Perm (y :: x :: ys) := List.Perm.cons y (ih j hj)
      have h3 : (y :: x :: ys).Perm (x :: y :: ys) := List.Perm.swap x y ys
      exact (h1.trans h2).trans h3

/-- Helper: writing each of two read entries at the other's position is a
permutation. -/
theorem set_set_swap_perm {α : Type} (l : List α) (i j : Nat) (a b : α)
    (hi : l[i]? = some a) (hj : l[j]? = some b) :
    ((l.set i b).set j a).Perm l := by
  induction l generalizing i j with
  | nil => simp at hi
  | cons x xs ih =>
    cases i with
    | zero =>
      simp only [List.getElem?_cons_zero, Option.some.injEq] at hi
      cases j with
      | zero => rw [hi]; simp
      | succ j =>
        simp only [List.getElem?_cons_succ] at hj
        rw [hi]
        exact cons_set_perm xs j b a hj
    | succ i =>
      simp only [List.getElem?_cons_succ] at hi
      cases j with
      | zero =>
        simp only [List.getElem?_cons_zero, Option.some.injEq] at hj
        rw [hj]
        exact cons_set_perm xs i a b hi
      | succ j =>
        simp only [List.getElem?_cons_succ] at hj
        exact List.Perm.cons x (ih i j hi hj)

/-- Helper: the JS two-assignment swap permutes the list. -/
theorem swapEntries_perm {α : Type} (l : List α) (i j : Nat) :
    (swapEntries l i j).Perm l := by
  unfold swapEntries
  cases hi : l[i]? with
  | none => simp [hi]
  | some a =>
    cases hj : l[j]? with
    | none => simp [hi, hj]
    | some b =>
      simp only [hi, hj]
      exact set_set_swap_perm l i j a b hi hj

/-- Helper: `swapEntries` commutes with `map`. -/
theorem map_swapEntries {α β : Type} (f : α → β) (l : List α) (i j : Nat) :
    (swapEntries l i j).map f = swapEntries (l.map f) i j := by
  unfold swapEntries
  cases hi : l[i]? with
  | none => simp [List.getElem?_map, hi]
  | some a =>
    cases hj : l[j]? with
    | none => simp [List.getElem?_map, hi, hj]
    | some b => simp [List.getElem?_map, hi, hj, List.map_set]

/-- Helper: reindexing the `order` fields does not change the section types. -/
theorem map_type_reindexOrders (l : List ContentSection) :
    (reindexOrders l).map ContentSection.type = l.map ContentSection.type := by
  apply List.ext_getElem?
  intro i
  simp only [reindexOrders, List.getElem?_map, List.getElem?_mapIdx, Option.map_map]
  cases l[i]? <;> rfl

/-- Helper: `addContentSection` preserves distinctness of the section types. -/
theorem addContentSection_type_nodup (st : ComposerState) (t : SectionType)
    (h : (st.contentSections.map ContentSection.type).Nodup) :
    ((addContentSection st t).contentSections.map ContentSection.type).Nodup := by
  unfold addContentSection
  by_cases hmem : st.contentSections.any (fun s => s.type == t) = true
  · simpa [hmem] using h
  · have hnotin : t ∉ st.contentSections.map ContentSection.type := by
      intro hin
      obtain ⟨s, hs, hst⟩ := List.mem_map.mp hin
      exact hmem (List.any_eq_true.mpr ⟨s, hs, by simp [hst]⟩)
    simp only [hmem, Bool.false_eq_true, if_false]
    rw [List.map_append]
    refine List.Nodup.append h (by simp) ?_
    intro x hx hx'
    simp only [List.map_cons, List.map_nil, List.mem_cons, List.not_mem_nil, or_false] at hx'
    subst hx'
    exact hnotin hx

/-- Helper: every section-management operation preserves distinctness of the
section types. -/
theorem applyComposerOp_type_nodup (st : ComposerState) (op : ComposerOp)
    (h : (st.contentSections.map ContentSection.type).Nodup) :
    ((applyComposerOp st op).contentSections.map ContentSection.type).Nodup := by
  cases op with
  | addSection t => exact addContentSection_type_nodup st t h
  | removeSection i =>
    have hsub : List.Sublist (st.contentSections.eraseIdx i) st.contentSections :=
      List.eraseIdx_sublist st.contentSections i
    have hnd := List.Nodup.sublist (hsub.map ContentSection.type) h
    simpa [applyComposerOp, removeContentSection, map_type_reindexOrders] using hnd
  | moveSection i up =>
    simp only [applyComposerOp, moveContentSection]
    split
    · exact h
    · rw [map_type_reindexOrders, map_swapEntries]
      exact (swapEntries_perm (st.contentSections.map ContentSection.type) i
        (if up then i - 1 else i + 1)).nodup_iff.mpr h

/-- C8: in every composer state reachable from the empty composer through
`addContentSection`, `removeContentSection` and `moveContentSection`, the
section types are pairwise distinct, and calling `addContentSection` with a
type that already occurs leaves the whole state (sections, image files and
previews) unchanged. -/
theorem composer_sections_type_unique (ops : List ComposerOp) (st : ComposerState)
    (t : SectionType) :
    ((runComposerOps ops).contentSections.map ContentSection.type).Nodup ∧
    (st.contentSections.any (fun s => s.type == t) = true → addContentSection st t = st) := by
  constructor
  · have main : ∀ (l : List ComposerOp) (s : ComposerState),
        (s.contentSections.map ContentSection.type).Nodup →
        ((l.foldl applyComposerOp s).contentSections.map ContentSection.type).Nodup := by
      intro l
      induction l with
      | nil => intro s hs; exact hs
      | cons op l ih =>
        intro s hs
        exact ih (applyComposerOp s op) (applyComposerOp_type_nodup s op hs)
    exact main ops initialComposer (by simp [initialComposer])
  · intro h
    unfold addContentSection
    rw [if_pos h]

/-- C8 (witness): adding a second image section to a composer that already
holds one changes nothing. -/
theorem composer_sections_type_unique_witness :
    addContentSection (runComposerOps [ComposerOp.addSection SectionType.image])
        SectionType.image
      = runComposerOps [ComposerOp.addSection SectionType.image] :=
  (composer_sections_type_unique [] (runComposerOps [ComposerOp.addSection SectionType.image])
      SectionType.image).2 (by decide)

/-- C9: for a session whose role is not privileged (`owner`/`admin`/`mod`),
`addImageDetail` never grows a section's `imageDetail` list beyond the
role's limit (30 for `god`, 5 otherwise): every section either ends within
the limit or is left exactly as it was; and when the targeted section has
already reached the limit the whole composer state is unchanged. -/
theorem addImageDetail_limit (st : ComposerState) (role : Option String) (i : Nat)
    (hpriv : isPrivilegedRole role = false) :
    (∀ j : Nat,
      ((((addImageDetail st role i).contentSections[j]?).map
          fun s => (s.imageDetail.getD []).length).getD 0 ≤ imageLimitFor role) ∨
      (addImageDetail st role i).contentSections[j]? = st.contentSections[j]?) ∧
    (imageLimitFor role ≤
        (((st.contentSections[i]?).map fun s => (s.imageDetail.getD []).length).getD 0) →
      addImageDetail st role i = st) := by
  unfold addImageDetail
  by_cases hlim : imageLimitFor role ≤
      (((st.contentSections[i]?).map fun s => (s.imageDetail.getD []).length).getD 0)
  · rw [if_pos ⟨hpriv, hlim⟩]
    exact ⟨fun j => Or.inr rfl, fun _ => rfl⟩
  · rw [if_neg (fun hc => hlim hc.2)]
    refine ⟨?_, fun h => absurd h hlim⟩
    intro j
    simp only [List.getElem?_mapIdx]
    cases hsj : st.contentSections[j]? with
    | none => exact Or.inr rfl
    | some s =>
      by_cases hcond : j = i ∧ s.type = SectionType.image
      · left
        obtain ⟨rfl, himg⟩ := hcond
        rw [hsj] at hlim
        simp only [Option.map_some', Option.getD_some] at hlim
        simp [hsj, himg]
        omega
      · right
        simp [hsj, hcond]

/-- C9 (witness): with no role (hence limit 5) and an image section already
holding five detail URLs, `addImageDetail` leaves the composer unchanged. -/
theorem addImageDetail_limit_witness :
    addImageDetail
        (ComposerState.mk
          [ContentSection.mk SectionType.image (some "") (some "")
            (some ["a", "b", "c", "d", "e"]) 0]
          [some [none]] [some [""]])
        none 0
      = ComposerState.mk
          [ContentSection.mk SectionType.image (some "") (some "")
            (some ["a", "b", "c", "d", "e"]) 0]
          [some [none]] [some [""]] :=
  (addImageDetail_limit
      (ComposerState.mk
        [ContentSection.mk SectionType.image (some "") (some "")
          (some ["a", "b", "c", "d", "e"]) 0]
        [some [none]] [some [""]])
      none 0 (by decide)).2 (by decide)

/-- Helper: the upload step changes only `imageDetail`, never the type. -/
theorem uploadSection_type (upload : String → String) (files : List (Option FileSlots))
    (i : Nat) (s : ContentSection) : (uploadSection upload files i s).type = s.type := by
  unfold uploadSection
  split <;> rfl

/-- Helper: the upload step changes only `imageDetail`, never the order. -/
theorem uploadSection_order (upload : String → String) (files : List (Option FileSlots))
    (i : Nat) (s : ContentSection) : (uploadSection upload files i s).order = s.order := by
  unfold uploadSection
  split <;> rfl

/-- Helper: a `mapIdx` whose function preserves the section type does not
change the length of a type filter. -/
theorem length_filter_mapIdx_type (p : SectionType → Bool) (l : List ContentSection) :
    ∀ g : Nat → ContentSection → ContentSection, (∀ i s, (g i s).type = s.type) →
      ((l.mapIdx g).filter fun s => p s.type).length
        = (l.filter fun s => p s.type).length := by
  induction l with
  | nil => intro g hg; rfl
  | cons a l ih =>
    intro g hg
    rw [List.mapIdx_cons, List.filter_cons, List.filter_cons, hg 0 a]
    cases hc : p a.type with
    | false => simpa [hc] using ih (fun i s => g (i + 1) s) (fun i s => hg (i + 1) s)
    | true => simp [hc, ih (fun i s => g (i + 1) s) (fun i s => hg (i + 1) s)]

/-- C5: every section of the payload sent by a create or update request is
of type image, code, video or link, and the payload holds exactly one
section for each non-html composer section: the html sections are removed
before the request and nothing else is dropped. -/
theorem payload_section_types (upload : String → String) (fields : ComposerFields)
    (cs : ComposerState) :
    (∀ s ∈ (handleSubmitConfirm upload fields cs).sections,
      s.type = SectionType.image ∨ s.type = SectionType.code ∨
        s.type = SectionType.video ∨ s.type = SectionType.link) ∧
    (handleSubmitConfirm upload fields cs).sections.length
      = (cs.contentSections.filter fun s => s.type != SectionType.html).length := by
  constructor
  · intro s hs
    simp only [handleSubmitConfirm, buildPayloadSections] at hs
    obtain ⟨j, hj, hb⟩ := List.mem_mapIdx.mp hs
    have hmem := List.getElem_mem hj
    have hhtml := (List.mem_filter.mp hmem).2
    rw [bne_iff_ne] at hhtml
    have htype : s.type = ((updatedSections upload cs.contentSections
        cs.contentSectionImageFiles).filter fun s => s.type != SectionType.html)[j].type := by
      rw [← hb]; rfl
    rw [htype]
    revert hhtml
    cases ((updatedSections upload cs.contentSections
        cs.contentSectionImageFiles).filter fun s => s.type != SectionType.html)[j].type <;>
      simp
  · simp only [handleSubmitConfirm, buildPayloadSections, List.length_mapIdx]
    have h1 : ((updatedSections upload cs.contentSections
          cs.contentSectionImageFiles).filter fun s => s.type != SectionType.html)
        = ((cs.contentSections.mapIdx fun i s =>
            uploadSection upload cs.contentSectionImageFiles i s).filter
          fun s => (fun t => t != SectionType.html) s.type) := rfl
    rw [h1, length_filter_mapIdx_type (fun t => t != SectionType.html) cs.contentSections
      (fun i s => uploadSection upload cs.contentSectionImageFiles i s)
      (fun i s => uploadSection_type upload cs.contentSectionImageFiles i s)]

/-- C5 (witness): the theorem applied to a concrete composer holding one
code section: its single payload section (type code, order 1) is of one of
the four allowed types. -/
theorem payload_section_types_witness :
    (PayloadSection.mk SectionType.code (some "x") none none 1).type = SectionType.image ∨
    (PayloadSection.mk SectionType.code (some "x") none none 1).type = SectionType.code ∨
    (PayloadSection.mk SectionType.code (some "x") none none 1).type = SectionType.video ∨
    (PayloadSection.mk SectionType.code (some "x") none none 1).type = SectionType.link :=
  (payload_section_types id (ComposerFields.mk "T" "" "Cat" "" false "" false none)
      (ComposerState.mk [ContentSection.mk SectionType.code (some "x") none none 0] [] [])).1
    (PayloadSection.mk SectionType.code (some "x") none none 1) (by decide)

/-- C4 (counterexample): in the composer state reached by adding an image
section and then a code section (arranged positions 0 and 1, stored orders
0 and 1), the payload built by `handleSubmitConfirm` assigns both sections
the order value 1 (`section.order || index + 1` turns the falsy order 0
into `0 + 1`): the orders are neither the arranged positions nor pairwise
distinct. -/
theorem submit_order_not_positional_cex :
    ((handleSubmitConfirm id (ComposerFields.mk "T" "" "Cat" "" false "" false none)
          (runComposerOps [ComposerOp.addSection SectionType.image,
            ComposerOp.addSection SectionType.code])).sections.map
        PayloadSection.order) = [1, 1] ∧
    ¬ ((handleSubmitConfirm id (ComposerFields.mk "T" "" "Cat" "" false "" false none)
          (runComposerOps [ComposerOp.addSection SectionType.image,
            ComposerOp.addSection SectionType.code])).sections.map
        PayloadSection.order).Pairwise (fun a b => a ≠ b) ∧
    ((handleSubmitConfirm id (ComposerFields.mk "T" "" "Cat" "" false "" false none)
          (runComposerOps [ComposerOp.addSection SectionType.image,
            ComposerOp.addSection SectionType.code])).sections.map
        PayloadSection.order) ≠ [0, 1] := by
  decide

/-- C4 (amended): the payload assigns each section the order value
`section.order || index + 1`. For a composer-arranged state (stored orders
equal to arranged positions, no html sections) the section at position 0 is
sent with order 1 and every section at position i ≥ 1 with order i, so with
two or more sections the payload orders collide at 1 instead of being
pairwise distinct. -/
theorem submit_order_amended (upload : String → String) (fields : ComposerFields)
    (cs : ComposerState) (i : Nat)
    (horders : ∀ (j : Nat) (hj : j < cs.contentSections.length),
      (cs.contentSections.get ⟨j, hj⟩).order = j)
    (hnohtml : ∀ s ∈ cs.contentSections, s.type ≠ SectionType.html) :
    ((handleSubmitConfirm upload fields cs).sections.map PayloadSection.order)[i]?
      = (cs.contentSections[i]?).map fun _ => if i = 0 then 1 else i := by
  have hfilter : ((updatedSections upload cs.contentSections
        cs.contentSectionImageFiles).filter fun s => s.type != SectionType.html)
      = updatedSections upload cs.contentSections cs.contentSectionImageFiles := by
    apply List.filter_eq_self.mpr
    intro s hs
    obtain ⟨j, hj, hb⟩ := List.mem_mapIdx.mp hs
    rw [bne_iff_ne, ← hb, uploadSection_type]
    exact hnohtml cs.contentSections[j] (List.getElem_mem hj)
  simp only [handleSubmitConfirm]
  rw [hfilter]
  simp only [buildPayloadSections, updatedSections, List.getElem?_map, List.getElem?_mapIdx,
    Option.map_map]
  cases hsi : cs.contentSections[i]? with
  | none => rfl
  | some s =>
    obtain ⟨hlt, hget⟩ := List.getElem?_eq_some_iff.mp hsi
    have hsord : s.order = i := by rw [← hget]; exact horders i hlt
    simp only [Option.map_some', Function.comp_apply, payloadOfSection,
      uploadSection_order, hsord]
    by_cases hi : i = 0 <;> simp [hi]

/-- C4 (witness): the amended theorem applied to the two-section arranged
state: position 1 (a code section with stored order 1) is sent with payload
order 1. -/
theorem submit_order_amended_witness :
    ((handleSubmitConfirm id (ComposerFields.mk "T" "" "Cat" "" false "" false none)
          (runComposerOps [ComposerOp.addSection SectionType.image,
            ComposerOp.addSection SectionType.code])).sections.map
        PayloadSection.order)[1]? = some 1 := by
  have h := submit_order_amended id (ComposerFields.mk "T" "" "Cat" "" false "" false none)
    (runComposerOps [ComposerOp.addSection SectionType.image,
      ComposerOp.addSection SectionType.code]) 1 (by decide) (by decide)
  rw [h]
  decide

/-- Helper: `mapIdx` as a map over the enumeration from 0. -/
theorem mapIdx_eq_enumFrom_map {α β : Type} (f : Nat → α → β) (l : List α) :
    l.mapIdx f = (l.enumFrom 0).map fun x => f x.1 x.2 := by
  rw [List.mapIdx_eq_enum_map]
  rfl

/-- Helper: filtering a mapped enumeration by a property the map preserves
and projecting a component determined by the element and its index. -/
theorem filter_map_enumFrom_spec {α β γ : Type} (g : Nat → α → β) (p : β → Bool)
    (p' : α → Bool) (h : β → γ) (h' : Nat → α → γ)
    (hp : ∀ i a, p (g i a) = p' a) (hh : ∀ i a, p' a = true → h (g i a) = h' i a)
    (l : List α) : ∀ n : Nat,
    ((((l.enumFrom n).map fun x => g x.1 x.2).filter p).map h)
      = ((l.enumFrom n).filter fun x => p' x.2).map fun x => h' x.1 x.2 := by
  induction l with
  | nil => intro n; rfl
  | cons a as ih =>
    intro n
    simp only [List.enumFrom_cons, List.map_cons, List.filter_cons, hp n a]
    cases hc : p' a with
    | false => simpa using ih (n + 1)
    | true => simp [hh n a hc, ih (n + 1)]

/-- Helper: an index-independent filter and map over an enumeration reduce
to the plain filter and map. -/
theorem filter_map_enumFrom_snd {α γ : Type} (q : α → Bool) (h : α → γ) (l : List α) :
    ∀ n : Nat, ((l.enumFrom n).filter fun x => q x.2).map (fun x => h x.2)
      = (l.filter q).map h := by
  induction l with
  | nil => intro n; rfl
  | cons a as ih =>
    intro n
    simp only [List.enumFrom_cons, List.filter_cons]
    cases hc : q a with
    | false => simpa using ih (n + 1)
    | true => simp [ih (n + 1)]

/-- Helper: among the non-html sections, filtering for the image sections
is the same as filtering the original list for them. -/
theorem filter_image_filter_html (u : List ContentSection) :
    ((u.filter fun s => s.type != SectionType.html).filter
        fun s => s.type == SectionType.image)
      = u.filter fun s => s.type == SectionType.image := by
  rw [List.filter_filter]
  apply List.filter_congr
  intro s _
  cases s.type <;> rfl

/-- Helper: what the payload keeps of an image section's `imageDetail`
after the upload loop: the upload URLs of the chosen files when the file
slot is present (non-blank by assumption, so the blank-URL filter keeps
them all), the non-blank typed URLs otherwise. -/
theorem uploadSection_imageDetail_payload (upload : String → String)
    (files : List (Option FileSlots)) (i : Nat) (a : ContentSection)
    (hupload : ∀ f, jsTrim (upload f) ≠ "") (ha : a.type = SectionType.image) :
    some (((uploadSection upload files i a).imageDetail.getD []).filter
        fun url => jsTrim url != "")
      = if slotPresent files i = true then
          some (((readSlots files i).filterMap id).map upload)
        else some ((a.imageDetail.getD []).filter fun url => jsTrim url != "") := by
  unfold uploadSection
  by_cases hslot : slotPresent files i = true
  · rw [if_pos ⟨ha, hslot⟩, if_pos hslot]
    simp only [Option.getD_some]
    congr 1
    rw [List.filter_eq_self]
    intro url hurl
    obtain ⟨f, _, rfl⟩ := List.mem_map.mp hurl
    exact bne_iff_ne.mpr (hupload f)
  · rw [if_neg (fun hc => hslot hc.2), if_neg hslot]

/-- Helper: the `imageDetail` lists of the payload's image sections, in
order, are exactly the per-image-section results of the upload loop: the
upload URLs of the chosen files for sections with a file slot, the
non-blank typed URLs otherwise. -/
theorem payload_imageDetail_eq (upload : String → String) (l : List ContentSection)
    (files : List (Option FileSlots)) (hupload : ∀ f, jsTrim (upload f) ≠ "") :
    ((buildPayloadSections ((updatedSections upload l files).filter
        fun s => s.type != SectionType.html)).filter
      fun s => s.type == SectionType.image).map PayloadSection.imageDetail
    = (l.enum.filter fun x => x.2.type == SectionType.image).map fun x =>
        if slotPresent files x.1 = true then
          some (((readSlots files x.1).filterMap id).map upload)
        else some ((x.2.imageDetail.getD []).filter fun url => jsTrim url != "") := by
  have hstep1 : ((buildPayloadSections ((updatedSections upload l files).filter
        fun s => s.type != SectionType.html)).filter
      fun s => s.type == SectionType.image).map PayloadSection.imageDetail
      = ((((updatedSections upload l files).filter
            fun s => s.type != SectionType.html).filter
          fun s => s.type == SectionType.image).map
        fun s => some ((s.imageDetail.getD []).filter fun url => jsTrim url != "")) := by
    rw [buildPayloadSections, mapIdx_eq_enumFrom_map,
      filter_map_enumFrom_spec (fun i s => payloadOfSection i s)
        (fun s => s.type == SectionType.image) (fun s => s.type == SectionType.image)
        PayloadSection.imageDetail
        (fun _ s => some ((s.imageDetail.getD []).filter fun url => jsTrim url != ""))
        (fun i a => rfl)
        (fun i a ha => by
          simp only [payloadOfSection]
          rw [beq_iff_eq] at ha
          simp [ha])]
    exact filter_map_enumFrom_snd (fun s => s.type == SectionType.image)
      (fun s => some ((s.imageDetail.getD []).filter fun url => jsTrim url != ""))
      ((updatedSections upload l files).filter fun s => s.type != SectionType.html) 0
  rw [hstep1, filter_image_filter_html, updatedSections, mapIdx_eq_enumFrom_map,
    filter_map_enumFrom_spec (fun i s => uploadSection upload files i s)
      (fun s => s.type == SectionType.image) (fun s => s.type == SectionType.image)
      (fun s => some ((s.imageDetail.getD []).filter fun url => jsTrim url != ""))
      (fun i s =>
        if slotPresent files i = true then
          some (((readSlots files i).filterMap id).map upload)
        else some ((s.imageDetail.getD []).filter fun url => jsTrim url != ""))
      (fun i a =>
        (by rw [uploadSection_type] :
          ((uploadSection upload files i a).type == SectionType.image)
            = (a.type == SectionType.image)))
      (fun i a ha =>
        uploadSection_imageDetail_payload upload files i a hupload (beq_iff_eq.mp ha))]
  rfl

/-- C3: deferred (upload-on-submit) media attachment. Selecting a featured
image or a content-section image issues no upload request: the selection
handlers store only the file and a local object-URL preview. The uploads
happen in `handleSubmitConfirm`, and the submitted payload is built from
their results: when a featured image file is attached the payload's
`mediaUrl` is exactly the URL its upload returned, and the payload's image
sections correspond in order to the composer's image sections, each one
with a file slot carrying as `imageDetail` exactly the upload URLs of its
chosen files, in selection order (the hosting endpoint is assumed to return
non-blank URLs). -/
theorem deferred_upload_on_submit (upload : String → String) (fields : ComposerFields)
    (cs : ComposerState) (hupload : ∀ f, jsTrim (upload f) ≠ "") :
    (∀ (fs : FeaturedImageState) (file : Option String) (v : Bool),
      (handleFeaturedImageChange fs file v).2 = []) ∧
    (∀ (fs : FeaturedImageState) (file : String),
      (handleFeaturedImageChange fs (some file) true).1.selectedFeaturedImage = some file ∧
      (handleFeaturedImageChange fs (some file) true).1.featuredImagePreview
        = some (objectURL file)) ∧
    (∀ (st : ComposerState) (si ii : Nat) (file : Option String),
      (handleContentSectionImageChange st si ii file).2 = []) ∧
    (∀ file : String, fields.selectedFeaturedImage = some file →
      (handleSubmitConfirm upload fields cs).mediaUrl = some (upload file)) ∧
    (((handleSubmitConfirm upload fields cs).sections.filter
        fun s => s.type == SectionType.image).map PayloadSection.imageDetail
      = (cs.contentSections.enum.filter fun x => x.2.type == SectionType.image).map fun x =>
          if slotPresent cs.contentSectionImageFiles x.1 = true then
            some (((readSlots cs.contentSectionImageFiles x.1).filterMap id).map upload)
          else some ((x.2.imageDetail.getD []).filter fun url => jsTrim url != "")) := by
  refine ⟨?_, ?_, ?_, ?_, ?_⟩
  · intro fs file v
    cases file with
    | none => rfl
    | some f => cases v <;> rfl
  · intro fs file
    exact ⟨rfl, rfl⟩
  · intro st si ii file
    rfl
  · intro file hfile
    simp [handleSubmitConfirm, hfile]
  · have h := payload_imageDetail_eq upload cs.contentSections
      cs.contentSectionImageFiles hupload
    simpa [handleSubmitConfirm] using h

/-- C3 (witness): in the composer holding an image and a code section,
after choosing file "pic" for the image section, submitting with the
constant upload oracle (every upload returns "u") produces an image payload
section whose `imageDetail` is exactly ["u"]. -/
theorem deferred_upload_on_submit_witness :
    List.map PayloadSection.imageDetail
        ((handleSubmitConfirm (fun _ => "u")
            (ComposerFields.mk "T" "" "Cat" "" false "" false none)
            (handleContentSectionImageChange
              (runComposerOps [ComposerOp.addSection SectionType.image,
                ComposerOp.addSection SectionType.code]) 0 0 (some "pic")).1).sections.filter
          fun s => s.type == SectionType.image)
      = [some ["u"]] := by
  have h := (deferred_upload_on_submit (fun _ => "u")
      (ComposerFields.mk "T" "" "Cat" "" false "" false none)
      (handleContentSectionImageChange
        (runComposerOps [ComposerOp.addSection SectionType.image,
          ComposerOp.addSection SectionType.code]) 0 0 (some "pic")).1
      (fun f => by show jsTrim "u" ≠ ""; decide)).2.2.2.2
  rw [h]
  decide

end FeGoLostMedia
